import Mathlib

/-!
The danmaku lane scheduler of `DanmakuPlayer`.

A shallow embedding of the scheduling part of `src/mpvwidget.cpp`
(`DanmakuPlayer::initDanmaku`, `launchDanmaku`, `getAvailDanmakuChannel`,
`setRandomSequence`, `updateDanmakuFrequency` and the `Key_D` branch of
`keyPressEvent`) together with the private fields of `src/mpvwidget.h`.

Modelling conventions.

* A C++ `int` is a mathematical integer (`Int`).  `/` and `%` are the truncating
  `Int.tdiv` and `Int.tmod`.  Signed overflow is undefined behaviour in C++, so
  the model describes the executions in which no counter leaves the `int` range.
* `int danmakuChannelSequence[24]` is a function on `Fin 24`, `int
  danmakuFrequency[4]` a function on `Fin 4`.  A subscript computed at run time
  is an `Int`; a read or write whose subscript is outside `[0,24)` has no
  defined result and the operation returns `none`.
* `qrand()` is a stream `Nat → Int`: the `n`-th call made by an operation
  returns `qrand n`.
* The widget, label and animation code of `launchDanmaku` does not touch the
  scheduler fields and is left out; `launchDanmaku` returns the channel it
  obtained from `getAvailDanmakuChannel`.
-/

/-- Contents of `int danmakuChannelSequence[24]`. -/
abbrev ChannelSequence := Fin 24 → Int

/-- Private fields of `class DanmakuPlayer` (mpvwidget.h, lines 81-88). -/
structure DanmakuPlayer where
  danmakuHighFreqMode : Bool
  danmakuFrequency : Fin 4 → Int
  danmakuChannelIndex : Int
  danmakuChannelSequence : ChannelSequence
  danmakuChannelMask : Nat
  danmakuShowFlag : Bool

/-- Default member initialisers of the private fields. -/
def DanmakuPlayer.fieldDefaults : DanmakuPlayer where
  danmakuHighFreqMode := false
  danmakuFrequency := fun _ => 0
  danmakuChannelIndex := 0
  danmakuChannelSequence := fun _ => 0
  danmakuChannelMask := 0x0000FFFF
  danmakuShowFlag := true

/-- Subscript into `danmakuChannelSequence[24]`: defined only inside the array. -/
def channelSlot (k : Int) : Option (Fin 24) :=
  if h : 0 ≤ k ∧ k < 24 then some ⟨k.toNat, by omega⟩ else none

/-- The two subscripts used by iteration `i` of the loop of `setRandomSequence`
when `qrand()` returns `r`: `baseIndex - i` and `baseIndex - rdOffset` with
`rdOffset = r % lengh`. -/
def shuffleSubscripts (baseIndex lengh : Int) (i : Nat) (r : Int) : Int × Int :=
  (baseIndex - i, baseIndex - Int.tmod r lengh)

/-- Body of the loop of `setRandomSequence` (mpvwidget.cpp, lines 260-263). -/
def shuffleStep (baseIndex lengh : Int) (i : Nat) (r : Int) (seq : ChannelSequence) :
    Option ChannelSequence :=
  match channelSlot (shuffleSubscripts baseIndex lengh i r).1,
        channelSlot (shuffleSubscripts baseIndex lengh i r).2 with
  | some a, some c =>
    let temp := seq a
    let seq := Function.update seq a (seq c)
    some (Function.update seq c temp)
  | _, _ => none

/-- The loop `for(i = 0; i < lengh; i++)` of `setRandomSequence`, entered at
counter value `i` with `n` iterations left. -/
def shuffleLoop (baseIndex lengh : Int) (qrand : Nat → Int) :
    Nat → Nat → ChannelSequence → Option ChannelSequence
  | 0, _, seq => some seq
  | n + 1, i, seq =>
    match shuffleStep baseIndex lengh i (qrand i) seq with
    | none => none
    | some seq => shuffleLoop baseIndex lengh qrand n (i + 1) seq

/-- The clamp at the head of `setRandomSequence` (lines 254-257). -/
def clampLengh (baseIndex lengh : Int) : Int :=
  if baseIndex - lengh < -1 then 1 + baseIndex else lengh

/-- The function `DanmakuPlayer::setRandomSequence` (mpvwidget.cpp, lines 250-265). -/
def DanmakuPlayer.setRandomSequence (p : DanmakuPlayer) (baseIndex lengh : Int)
    (qrand : Nat → Int) : Option DanmakuPlayer :=
  let lengh := clampLengh baseIndex lengh
  match shuffleLoop baseIndex lengh qrand lengh.toNat 0 p.danmakuChannelSequence with
  | none => none
  | some seq => some { p with danmakuChannelSequence := seq }

/-- Subscripts read and written by the loop of `setRandomSequence`, in program
order, entered at counter value `i` with `n` iterations left. -/
def shuffleLoopSubscripts (baseIndex lengh : Int) (qrand : Nat → Int) :
    Nat → Nat → List Int
  | 0, _ => []
  | n + 1, i =>
    (shuffleSubscripts baseIndex lengh i (qrand i)).1 ::
      (shuffleSubscripts baseIndex lengh i (qrand i)).2 ::
        shuffleLoopSubscripts baseIndex lengh qrand n (i + 1)

/-- Every subscript of `danmakuChannelSequence` that a call
`setRandomSequence(baseIndex, lengh)` evaluates. -/
def setRandomSequenceSubscripts (baseIndex lengh : Int) (qrand : Nat → Int) : List Int :=
  let lengh := clampLengh baseIndex lengh
  shuffleLoopSubscripts baseIndex lengh qrand lengh.toNat 0

/-- The loop `for(int i = 0; i < 24; i++) danmakuChannelSequence[i] = i;`. -/
def fillIdentity (seq : ChannelSequence) : ChannelSequence :=
  (List.finRange 24).foldl (fun s i => Function.update s i (i.val : Int)) seq

/-- The function `DanmakuPlayer::initDanmaku` (mpvwidget.cpp, lines 172-182).  The first
call of `setRandomSequence` makes 12 calls of `qrand()`, so the second one sees
the stream from position 12 on. -/
def DanmakuPlayer.initDanmaku (p : DanmakuPlayer) (qrand : Nat → Int) :
    Option DanmakuPlayer :=
  let p := { p with danmakuChannelSequence := fillIdentity p.danmakuChannelSequence }
  match p.setRandomSequence 23 12 qrand with
  | none => none
  | some p => p.setRandomSequence 11 12 (fun n => qrand (n + 12))

/-- Constructor `DanmakuPlayer::DanmakuPlayer` (lines 161-165): the default
member initialisers followed by `initDanmaku()`. -/
def DanmakuPlayer.construct (qrand : Nat → Int) : Option DanmakuPlayer :=
  DanmakuPlayer.fieldDefaults.initDanmaku qrand

/-- The function `DanmakuPlayer::getAvailDanmakuChannel` (mpvwidget.cpp, lines 220-248).
The inner test `danmakuFrequency[3] == 0` guards an empty block (its two calls
are commented out) and is left out. -/
def DanmakuPlayer.getAvailDanmakuChannel (p : DanmakuPlayer) :
    Option (Int × DanmakuPlayer) :=
  match channelSlot p.danmakuChannelIndex with
  | none => none
  | some j =>
    let channel := p.danmakuChannelSequence j
    let p :=
      if p.danmakuFrequency 3 ≥ 4 then { p with danmakuHighFreqMode := true }
      else { p with danmakuHighFreqMode := false }
    let p :=
      if p.danmakuHighFreqMode = false then
        { p with danmakuChannelIndex := Int.tmod (p.danmakuChannelIndex + 1) 12 }
      else
        { p with danmakuChannelIndex := Int.tmod (p.danmakuChannelIndex + 1) 24 }
    some (channel, p)

/-- Scheduler part of `DanmakuPlayer::launchDanmaku` (lines 191-192):
`danmakuFrequency[2]++` followed by `getAvailDanmakuChannel()`. -/
def DanmakuPlayer.launchDanmaku (p : DanmakuPlayer) : Option (Int × DanmakuPlayer) :=
  let f := Function.update p.danmakuFrequency 2 (p.danmakuFrequency 2 + 1)
  DanmakuPlayer.getAvailDanmakuChannel { p with danmakuFrequency := f }

/-- The function `DanmakuPlayer::updateDanmakuFrequency` (mpvwidget.cpp, lines 267-277). -/
def DanmakuPlayer.updateDanmakuFrequency (p : DanmakuPlayer) : DanmakuPlayer :=
  let f := p.danmakuFrequency
  let f := Function.update f 3 (Int.tdiv (f 2 + f 1 + f 0) 3)
  let temp := f 2
  let f := Function.update f 2 0
  let f := Function.update f 0 (f 1)
  let f := Function.update f 1 temp
  { p with danmakuFrequency := f }

/-- The `Qt::Key_D` branch of `DanmakuPlayer::keyPressEvent` (lines 282-289):
toggles the overlay and calls `initDanmaku()` when it becomes visible again. -/
def DanmakuPlayer.keyPressEventKeyD (p : DanmakuPlayer) (qrand : Nat → Int) :
    Option DanmakuPlayer :=
  let p := { p with danmakuShowFlag := !p.danmakuShowFlag }
  if p.danmakuShowFlag = false then some p else p.initDanmaku qrand

/-- `n` consecutive calls of `launchDanmaku` with nothing in between; returns
the channels in call order and the final state. -/
def DanmakuPlayer.launchMany : Nat → DanmakuPlayer → Option (List Int × DanmakuPlayer)
  | 0, p => some ([], p)
  | n + 1, p =>
    match p.launchDanmaku with
    | none => none
    | some (c, p) =>
      match DanmakuPlayer.launchMany n p with
      | none => none
      | some (cs, p) => some (c :: cs, p)

/-- `n` consecutive calls of `updateDanmakuFrequency` with nothing in between. -/
def DanmakuPlayer.updateMany : Nat → DanmakuPlayer → DanmakuPlayer
  | 0, p => p
  | n + 1, p => DanmakuPlayer.updateMany n p.updateDanmakuFrequency

/-- States the scheduler can be in: the constructor's result, and from there
any sequence of `initDanmaku`, the `Key_D` key press, `launchDanmaku` and
`updateDanmakuFrequency`, every `qrand()` value being non-negative. -/
inductive Reachable : DanmakuPlayer → Prop
  | construct (qrand : Nat → Int) (p : DanmakuPlayer) :
      (∀ n, 0 ≤ qrand n) → DanmakuPlayer.construct qrand = some p → Reachable p
  | init (qrand : Nat → Int) (p q : DanmakuPlayer) :
      Reachable p → (∀ n, 0 ≤ qrand n) → p.initDanmaku qrand = some q → Reachable q
  | keyD (qrand : Nat → Int) (p q : DanmakuPlayer) :
      Reachable p → (∀ n, 0 ≤ qrand n) → p.keyPressEventKeyD qrand = some q → Reachable q
  | launch (p q : DanmakuPlayer) (c : Int) :
      Reachable p → p.launchDanmaku = some (c, q) → Reachable q
  | update (p : DanmakuPlayer) :
      Reachable p → Reachable p.updateDanmakuFrequency

/-- The closed interval of subscripts `[baseIndex - lengh + 1, baseIndex]`. -/
def InWindow (baseIndex lengh : Int) (k : Int) : Prop :=
  baseIndex - lengh + 1 ≤ k ∧ k ≤ baseIndex

/-- The table lists `0..23` with `0..11` in the slots `0..11` and `12..23` in the
slots `12..23`: it is a permutation of the slots that keeps each half. -/
def HalfShuffled (seq : ChannelSequence) : Prop :=
  ∃ σ : Equiv.Perm (Fin 24),
    (∀ j, seq j = ((σ j).val : Int)) ∧ ∀ j, (σ j).val < 12 ↔ j.val < 12

/-- The invariant of the reachable states: the cursor is a subscript of the
table and the table is a half-wise permutation. -/
def SchedulerInv (p : DanmakuPlayer) : Prop :=
  0 ≤ p.danmakuChannelIndex ∧ p.danmakuChannelIndex < 24 ∧
    HalfShuffled p.danmakuChannelSequence

/-- Number of slots the cursor cycles through on the next `launchDanmaku`:
24 when `danmakuFrequency[3] >= 4`, otherwise 12. -/
def DanmakuPlayer.activeLaneCount (p : DanmakuPlayer) : Nat :=
  if p.danmakuFrequency 3 ≥ 4 then 24 else 12

/-- The cursor that follows `c` when it is advanced modulo `m`. -/
def nextCursor (m : Nat) (c : Fin 24) : Fin 24 := Fin.ofNat ((c.val + 1) % m)

/-- The `n` cursor values used by `n` consecutive calls that advance modulo `m`,
beginning with `c`. -/
def cursorsFrom (m : Nat) : Fin 24 → Nat → List (Fin 24)
  | _, 0 => []
  | c, n + 1 => c :: cursorsFrom m (nextCursor m c) n

/-- The cursor value left by `n` consecutive calls that advance modulo `m`,
beginning with `c`. -/
def cursorAfter (m : Nat) : Fin 24 → Nat → Fin 24
  | c, 0 => c
  | c, n + 1 => cursorAfter m (nextCursor m c) n

/-- A sample stream of `qrand()` values: `5, 6, 9, 14, 21, ...`. -/
def sampleDraws : Nat → Int := fun n => (n : Int) * (n : Int) + 5

/-- The player the constructor builds when `qrand()` follows `sampleDraws`. -/
def samplePlayer : DanmakuPlayer :=
  (DanmakuPlayer.construct sampleDraws).getD DanmakuPlayer.fieldDefaults

/-- The state after `n` consecutive calls of `launchDanmaku` (`p` itself when
one of the calls has no defined result). -/
def DanmakuPlayer.afterLaunches (n : Nat) (p : DanmakuPlayer) : DanmakuPlayer :=
  match p.launchMany n with
  | some (_, q) => q
  | none => p

/-- The sample player after a burst: 12 calls of `launchDanmaku` in one window
and one `updateDanmakuFrequency`. -/
def burstPlayer : DanmakuPlayer :=
  (samplePlayer.afterLaunches 12).updateDanmakuFrequency

/-- The burst player after 18 further calls of `launchDanmaku` and then four
calls of `updateDanmakuFrequency` with no `launchDanmaku` in between. -/
def strandedPlayer : DanmakuPlayer :=
  (burstPlayer.afterLaunches 18).updateMany 4

/-- The burst player after 12 further calls of `launchDanmaku` in the window
that follows the burst. -/
def busyPlayer : DanmakuPlayer := burstPlayer.afterLaunches 12

/-! ## Subscripts -/

theorem channelSlot_of_mem {k : Int} (h0 : 0 ≤ k) (h1 : k < 24) :
    ∃ a : Fin 24, channelSlot k = some a ∧ (a.val : Int) = k := by
  refine ⟨⟨k.toNat, by omega⟩, ?_, ?_⟩
  · rw [channelSlot, dif_pos ⟨h0, h1⟩]
  · exact Int.toNat_of_nonneg h0

theorem channelSlot_val (j : Fin 24) : channelSlot (j.val : Int) = some j := by
  have h0 : (0 : Int) ≤ (j.val : Int) := Int.ofNat_nonneg _
  have h1 : (j.val : Int) < 24 := by have := j.isLt; omega
  rw [channelSlot, dif_pos ⟨h0, h1⟩]
  simp

/-! ## The partial shuffle `setRandomSequence` -/

theorem shuffleStep_eq_swap (baseIndex lengh : Int) (i : Nat) (r : Int) (seq : ChannelSequence)
    (a c : Fin 24)
    (ha : channelSlot (shuffleSubscripts baseIndex lengh i r).1 = some a)
    (hc : channelSlot (shuffleSubscripts baseIndex lengh i r).2 = some c) :
    shuffleStep baseIndex lengh i r seq = some (seq ∘ Equiv.swap a c) := by
  unfold shuffleStep
  rw [ha, hc]
  simp only
  congr 1
  funext j
  simp only [Function.comp_apply, Function.update_apply, Equiv.swap_apply_def]
  by_cases h1 : j = c
  · subst h1
    by_cases h2 : j = a
    · subst h2; simp
    · simp [h2]
  · by_cases h2 : j = a
    · subst h2; simp [h1]
    · simp [h1, h2]

theorem shuffleSubscripts_inWindow (baseIndex lengh : Int) (i : Nat) (r : Int)
    (hr : 0 ≤ r) (hi : (i : Int) < lengh) :
    InWindow baseIndex lengh (shuffleSubscripts baseIndex lengh i r).1 ∧
    InWindow baseIndex lengh (shuffleSubscripts baseIndex lengh i r).2 := by
  have hpos : 0 < lengh := by omega
  have h1 : 0 ≤ Int.tmod r lengh := Int.tmod_nonneg _ hr
  have h2 : Int.tmod r lengh < lengh := Int.tmod_lt_of_pos _ hpos
  unfold InWindow shuffleSubscripts
  simp only
  omega

theorem shuffleLoop_spec (baseIndex lengh : Int) (qrand : Nat → Int)
    (hq : ∀ n, 0 ≤ qrand n) (hb : baseIndex < 24) (hl : lengh ≤ baseIndex + 1) :
    ∀ (n i : Nat) (seq : ChannelSequence), (0 < n → (i : Int) + n ≤ lengh) →
      ∃ σ : Equiv.Perm (Fin 24),
        (∀ j : Fin 24, ¬ InWindow baseIndex lengh (j.val : Int) → σ j = j) ∧
        shuffleLoop baseIndex lengh qrand n i seq = some (seq ∘ σ) := by
  intro n
  induction n with
  | zero =>
    intro i seq _
    exact ⟨1, fun _ _ => rfl, by simp [shuffleLoop]⟩
  | succ n ih =>
    intro i seq hin
    have hin := hin (Nat.succ_pos n)
    have hi : (i : Int) < lengh := by omega
    obtain ⟨w1, w2⟩ := shuffleSubscripts_inWindow baseIndex lengh i (qrand i) (hq i) hi
    obtain ⟨a, ha, hav⟩ := channelSlot_of_mem (k := (shuffleSubscripts baseIndex lengh i (qrand i)).1)
      (by unfold InWindow at w1; omega) (by unfold InWindow at w1; omega)
    obtain ⟨c, hc, hcv⟩ := channelSlot_of_mem (k := (shuffleSubscripts baseIndex lengh i (qrand i)).2)
      (by unfold InWindow at w2; omega) (by unfold InWindow at w2; omega)
    obtain ⟨σ, hσ, hloop⟩ := ih (i + 1) (seq ∘ Equiv.swap a c) (fun _ => by push_cast; omega)
    refine ⟨Equiv.swap a c * σ, ?_, ?_⟩
    · intro j hj
      have hja : j ≠ a := by
        rintro rfl
        exact hj (hav ▸ w1)
      have hjc : j ≠ c := by
        rintro rfl
        exact hj (hcv ▸ w2)
      rw [Equiv.Perm.mul_apply, hσ j hj, Equiv.swap_apply_of_ne_of_ne hja hjc]
    · rw [shuffleLoop, shuffleStep_eq_swap baseIndex lengh i (qrand i) seq a c ha hc]
      simp only
      rw [hloop]
      rfl

theorem shuffleLoopSubscripts_inWindow (baseIndex lengh : Int) (qrand : Nat → Int)
    (hq : ∀ n, 0 ≤ qrand n) :
    ∀ (n i : Nat), (0 < n → (i : Int) + n ≤ lengh) →
      ∀ k ∈ shuffleLoopSubscripts baseIndex lengh qrand n i, InWindow baseIndex lengh k := by
  intro n
  induction n with
  | zero =>
    intro i _ k hk
    simp [shuffleLoopSubscripts] at hk
  | succ n ih =>
    intro i hin k hk
    have hin := hin (Nat.succ_pos n)
    have hi : (i : Int) < lengh := by omega
    obtain ⟨w1, w2⟩ := shuffleSubscripts_inWindow baseIndex lengh i (qrand i) (hq i) hi
    rw [shuffleLoopSubscripts] at hk
    rcases List.mem_cons.1 hk with rfl | hk
    · exact w1
    rcases List.mem_cons.1 hk with rfl | hk
    · exact w2
    · exact ih (i + 1) (fun _ => by push_cast; omega) k hk

theorem clampLengh_le (baseIndex lengh : Int) : clampLengh baseIndex lengh ≤ baseIndex + 1 := by
  unfold clampLengh
  split <;> omega

theorem clampLengh_window (baseIndex lengh : Int) :
    baseIndex - clampLengh baseIndex lengh + 1 = max 0 (baseIndex - lengh + 1) := by
  unfold clampLengh
  split <;> omega

theorem setRandomSequence_spec (p : DanmakuPlayer) (baseIndex lengh : Int) (qrand : Nat → Int)
    (hq : ∀ n, 0 ≤ qrand n) (hb : baseIndex < 24) :
    ∃ σ : Equiv.Perm (Fin 24),
      (∀ j : Fin 24, ¬ InWindow baseIndex (clampLengh baseIndex lengh) (j.val : Int) → σ j = j) ∧
      p.setRandomSequence baseIndex lengh qrand =
        some { p with danmakuChannelSequence := p.danmakuChannelSequence ∘ σ } := by
  obtain ⟨σ, hσ, hloop⟩ := shuffleLoop_spec baseIndex (clampLengh baseIndex lengh) qrand hq hb
    (clampLengh_le baseIndex lengh) (clampLengh baseIndex lengh).toNat 0
    p.danmakuChannelSequence (fun h => by omega)
  refine ⟨σ, hσ, ?_⟩
  unfold DanmakuPlayer.setRandomSequence
  simp only [hloop]

/-- A permutation that fixes every point outside a set maps the set to itself. -/
theorem perm_mem_iff_of_fixes {α : Type} (σ : Equiv.Perm α) (S : α → Prop)
    (h : ∀ j, ¬ S j → σ j = j) (j : α) : S (σ j) ↔ S j := by
  constructor
  · intro hs
    by_contra hj
    rw [h j hj] at hs
    exact hj hs
  · intro hs
    by_contra hj
    have h1 : σ (σ j) = σ j := h (σ j) hj
    have h2 : σ j = j := σ.injective h1
    rw [h2] at hj
    exact hj hs

theorem fillIdentity_apply (seq : ChannelSequence) (j : Fin 24) :
    fillIdentity seq j = (j.val : Int) := by
  fin_cases j <;> rfl

theorem initDanmaku_spec (p : DanmakuPlayer) (qrand : Nat → Int) (hq : ∀ n, 0 ≤ qrand n) :
    ∃ seq, HalfShuffled seq ∧
      p.initDanmaku qrand = some { p with danmakuChannelSequence := seq } := by
  obtain ⟨σ₁, h₁, e₁⟩ := setRandomSequence_spec
    { p with danmakuChannelSequence := fillIdentity p.danmakuChannelSequence } 23 12 qrand hq
    (by decide)
  obtain ⟨σ₂, h₂, e₂⟩ := setRandomSequence_spec
    { p with danmakuChannelSequence := fillIdentity p.danmakuChannelSequence ∘ σ₁ } 11 12
    (fun n => qrand (n + 12)) (fun n => hq _) (by decide)
  refine ⟨(fillIdentity p.danmakuChannelSequence ∘ σ₁) ∘ σ₂, ⟨σ₁ * σ₂, ?_, ?_⟩, ?_⟩
  · intro j
    simp [fillIdentity_apply]
  · intro j
    have k₁ := perm_mem_iff_of_fixes σ₁ (fun j => InWindow 23 (clampLengh 23 12) (j.val : Int)) h₁
    have k₂ := perm_mem_iff_of_fixes σ₂ (fun j => InWindow 11 (clampLengh 11 12) (j.val : Int)) h₂
    have c₁ : clampLengh 23 12 = 12 := by decide
    have c₂ : clampLengh 11 12 = 12 := by decide
    simp only [c₁, c₂, InWindow] at k₁ k₂
    have a₁ := k₁ (σ₂ j)
    have a₂ := k₂ j
    rw [Equiv.Perm.mul_apply]
    omega
  · unfold DanmakuPlayer.initDanmaku
    simp only [e₁, e₂]

/-! ## Consequences of `HalfShuffled` -/

theorem HalfShuffled.injective {seq : ChannelSequence} (h : HalfShuffled seq) :
    Function.Injective seq := by
  obtain ⟨σ, hσ, _⟩ := h
  intro a b hab
  rw [hσ a, hσ b] at hab
  exact σ.injective (Fin.ext (by exact_mod_cast hab))

theorem HalfShuffled.bounds {seq : ChannelSequence} (h : HalfShuffled seq) (j : Fin 24) :
    0 ≤ seq j ∧ seq j < 24 := by
  obtain ⟨σ, hσ, _⟩ := h
  have := (σ j).isLt
  rw [hσ j]
  omega

theorem HalfShuffled.lower {seq : ChannelSequence} (h : HalfShuffled seq) (j : Fin 24)
    (hj : j.val < 12) : 0 ≤ seq j ∧ seq j < 12 := by
  obtain ⟨σ, hσ, hh⟩ := h
  have := (hh j).2 hj
  rw [hσ j]
  omega

theorem HalfShuffled.upper {seq : ChannelSequence} (h : HalfShuffled seq) (j : Fin 24)
    (hj : 12 ≤ j.val) : 12 ≤ seq j ∧ seq j < 24 := by
  obtain ⟨σ, hσ, hh⟩ := h
  have := hh j
  have := (σ j).isLt
  rw [hσ j]
  omega

theorem HalfShuffled.exists_slot {seq : ChannelSequence} (h : HalfShuffled seq) (v : Int)
    (h0 : 0 ≤ v) (h1 : v < 24) :
    ∃ j : Fin 24, seq j = v ∧ (j.val < 12 ↔ v < 12) := by
  obtain ⟨σ, hσ, hh⟩ := h
  refine ⟨σ.symm ⟨v.toNat, by omega⟩, ?_, ?_⟩
  · rw [hσ, Equiv.apply_symm_apply]
    exact Int.toNat_of_nonneg h0
  · rw [← hh, Equiv.apply_symm_apply]
    simp only
    omega

/-! ## C10 and C2 -/

/-- C10: for `baseIndex` in `[0,23]`, any integer `lengh` and non-negative draws,
`setRandomSequence(baseIndex, lengh)` evaluates only subscripts in
`[max(0, baseIndex - lengh + 1), baseIndex]`, returns normally, changes no field
but the table, leaves every entry outside that range unchanged, and the entries
inside it are the old entries of the range rearranged by a permutation of the
range. -/
theorem setRandomSequence_clamped (p : DanmakuPlayer) (baseIndex lengh : Int)
    (qrand : Nat → Int) (hb0 : 0 ≤ baseIndex) (hb1 : baseIndex ≤ 23)
    (hq : ∀ n, 0 ≤ qrand n) :
    (∀ k ∈ setRandomSequenceSubscripts baseIndex lengh qrand,
      0 ≤ k ∧ max 0 (baseIndex - lengh + 1) ≤ k ∧ k ≤ baseIndex) ∧
    ∃ seq : ChannelSequence,
      p.setRandomSequence baseIndex lengh qrand =
        some { p with danmakuChannelSequence := seq } ∧
      (∀ j : Fin 24, ¬ (max 0 (baseIndex - lengh + 1) ≤ (j.val : Int) ∧
          (j.val : Int) ≤ baseIndex) → seq j = p.danmakuChannelSequence j) ∧
      ∃ σ : Equiv.Perm (Fin 24),
        (∀ j : Fin 24, (max 0 (baseIndex - lengh + 1) ≤ ((σ j).val : Int) ∧
            ((σ j).val : Int) ≤ baseIndex) ↔
          (max 0 (baseIndex - lengh + 1) ≤ (j.val : Int) ∧ (j.val : Int) ≤ baseIndex)) ∧
        ∀ j : Fin 24, seq j = p.danmakuChannelSequence (σ j) := by
  have hw := clampLengh_window baseIndex lengh
  constructor
  · intro k hk
    have := shuffleLoopSubscripts_inWindow baseIndex (clampLengh baseIndex lengh) qrand hq
      (clampLengh baseIndex lengh).toNat 0 (fun h => by omega) k hk
    unfold InWindow at this
    omega
  · obtain ⟨σ, hσ, e⟩ := setRandomSequence_spec p baseIndex lengh qrand hq (by omega)
    have hσ' : ∀ j : Fin 24, ¬ (max 0 (baseIndex - lengh + 1) ≤ (j.val : Int) ∧
        (j.val : Int) ≤ baseIndex) → σ j = j := by
      intro j hj
      apply hσ j
      unfold InWindow
      omega
    refine ⟨p.danmakuChannelSequence ∘ σ, e, ?_, σ, ?_, fun j => rfl⟩
    · intro j hj
      rw [Function.comp_apply, hσ' j hj]
    · exact perm_mem_iff_of_fixes σ
        (fun j => max 0 (baseIndex - lengh + 1) ≤ (j.val : Int) ∧ (j.val : Int) ≤ baseIndex) hσ'

/-- Witness of C10: base index 5 with requested length 100 and draws `0, 1, 2, ...`. -/
theorem setRandomSequence_clamped_witness :
    ((0 : Int) ≤ 5 ∧ (5 : Int) ≤ 23 ∧ ∀ n : Nat, (0 : Int) ≤ (fun n : Nat => (n : Int)) n) ∧
    ((∀ k ∈ setRandomSequenceSubscripts 5 100 (fun n : Nat => (n : Int)),
      0 ≤ k ∧ max 0 ((5 : Int) - 100 + 1) ≤ k ∧ k ≤ 5) ∧
    ∃ seq : ChannelSequence,
      DanmakuPlayer.fieldDefaults.setRandomSequence 5 100 (fun n : Nat => (n : Int)) =
        some { DanmakuPlayer.fieldDefaults with danmakuChannelSequence := seq } ∧
      (∀ j : Fin 24, ¬ (max 0 ((5 : Int) - 100 + 1) ≤ (j.val : Int) ∧
          (j.val : Int) ≤ 5) → seq j = DanmakuPlayer.fieldDefaults.danmakuChannelSequence j) ∧
      ∃ σ : Equiv.Perm (Fin 24),
        (∀ j : Fin 24, (max 0 ((5 : Int) - 100 + 1) ≤ ((σ j).val : Int) ∧
            ((σ j).val : Int) ≤ 5) ↔
          (max 0 ((5 : Int) - 100 + 1) ≤ (j.val : Int) ∧ (j.val : Int) ≤ 5)) ∧
        ∀ j : Fin 24, seq j = DanmakuPlayer.fieldDefaults.danmakuChannelSequence (σ j)) :=
  ⟨⟨by decide, by decide, fun n => Int.ofNat_nonneg n⟩,
    setRandomSequence_clamped DanmakuPlayer.fieldDefaults 5 100 (fun n : Nat => (n : Int))
      (by decide) (by decide) (fun n => Int.ofNat_nonneg n)⟩

/-- C2: for every prior state and all non-negative draws `initDanmaku` returns
normally and leaves a table in which every value of `0..23` occurs in exactly
one slot, the slots `0..11` hold exactly the values `0..11` and the slots
`12..23` hold exactly the values `12..23`. -/
theorem initDanmaku_permutation (p : DanmakuPlayer) (qrand : Nat → Int)
    (hq : ∀ n, 0 ≤ qrand n) :
    ∃ q : DanmakuPlayer, p.initDanmaku qrand = some q ∧
      (∀ j : Fin 24, 0 ≤ q.danmakuChannelSequence j ∧ q.danmakuChannelSequence j < 24) ∧
      (∀ v : Int, 0 ≤ v → v < 24 → ∃! j : Fin 24, q.danmakuChannelSequence j = v) ∧
      (∀ j : Fin 24, j.val < 12 →
        0 ≤ q.danmakuChannelSequence j ∧ q.danmakuChannelSequence j < 12) ∧
      (∀ v : Int, 0 ≤ v → v < 12 →
        ∃ j : Fin 24, j.val < 12 ∧ q.danmakuChannelSequence j = v) ∧
      (∀ j : Fin 24, 12 ≤ j.val →
        12 ≤ q.danmakuChannelSequence j ∧ q.danmakuChannelSequence j < 24) ∧
      (∀ v : Int, 12 ≤ v → v < 24 →
        ∃ j : Fin 24, 12 ≤ j.val ∧ q.danmakuChannelSequence j = v) := by
  obtain ⟨seq, hs, e⟩ := initDanmaku_spec p qrand hq
  refine ⟨_, e, hs.bounds, ?_, hs.lower, ?_, hs.upper, ?_⟩
  · intro v h0 h1
    obtain ⟨j, hj, _⟩ := hs.exists_slot v h0 h1
    exact ⟨j, hj, fun j' hj' => hs.injective (hj'.trans hj.symm)⟩
  · intro v h0 h1
    obtain ⟨j, hj, hlt⟩ := hs.exists_slot v h0 (by omega)
    exact ⟨j, hlt.2 h1, hj⟩
  · intro v h0 h1
    obtain ⟨j, hj, hlt⟩ := hs.exists_slot v (by omega) h1
    exact ⟨j, by omega, hj⟩

/-! ## One call and many calls of `launchDanmaku` -/

theorem nextCursor_val_12 (c : Fin 24) :
    ((nextCursor 12 c).val : Int) = Int.tmod ((c.val : Int) + 1) 12 := by
  have h : (nextCursor 12 c).val = (c.val + 1) % 12 := by
    simp only [nextCursor, Fin.ofNat, Fin.val_mk]
    omega
  rw [h, Int.tmod_eq_emod (by omega) (by omega)]
  omega

theorem nextCursor_val_24 (c : Fin 24) :
    ((nextCursor 24 c).val : Int) = Int.tmod ((c.val : Int) + 1) 24 := by
  have h : (nextCursor 24 c).val = (c.val + 1) % 24 := by
    simp only [nextCursor, Fin.ofNat, Fin.val_mk]
    omega
  rw [h, Int.tmod_eq_emod (by omega) (by omega)]
  omega

theorem launchDanmaku_eq (p : DanmakuPlayer) (c : Fin 24)
    (hc : p.danmakuChannelIndex = (c.val : Int)) :
    p.launchDanmaku = some (p.danmakuChannelSequence c,
      { p with
        danmakuFrequency := Function.update p.danmakuFrequency 2 (p.danmakuFrequency 2 + 1)
        danmakuHighFreqMode := decide (4 ≤ p.danmakuFrequency 3)
        danmakuChannelIndex := ((nextCursor p.activeLaneCount c).val : Int) }) := by
  unfold DanmakuPlayer.launchDanmaku DanmakuPlayer.getAvailDanmakuChannel
  simp only [hc, channelSlot_val, DanmakuPlayer.activeLaneCount]
  have h32 : (3 : Fin 4) ≠ 2 := by decide
  simp only [Function.update_noteq h32]
  by_cases h : 4 ≤ p.danmakuFrequency 3
  · simp [h, nextCursor_val_24]
  · simp [h, nextCursor_val_12]

theorem launchMany_spec (n : Nat) :
    ∀ (p : DanmakuPlayer) (c : Fin 24), p.danmakuChannelIndex = (c.val : Int) →
      ∃ q : DanmakuPlayer,
        p.launchMany n =
          some ((cursorsFrom p.activeLaneCount c n).map p.danmakuChannelSequence, q) ∧
        q.danmakuChannelSequence = p.danmakuChannelSequence ∧
        q.danmakuChannelIndex = ((cursorAfter p.activeLaneCount c n).val : Int) ∧
        q.danmakuFrequency 0 = p.danmakuFrequency 0 ∧
        q.danmakuFrequency 1 = p.danmakuFrequency 1 ∧
        q.danmakuFrequency 2 = p.danmakuFrequency 2 + n ∧
        q.danmakuFrequency 3 = p.danmakuFrequency 3 ∧
        (0 < n → q.danmakuHighFreqMode = decide (4 ≤ p.danmakuFrequency 3)) ∧
        q.danmakuChannelMask = p.danmakuChannelMask ∧
        q.danmakuShowFlag = p.danmakuShowFlag := by
  induction n with
  | zero =>
    intro p c hc
    exact ⟨p, rfl, rfl, hc, rfl, rfl, by simp, rfl, fun h => absurd h (by decide), rfl, rfl⟩
  | succ n ih =>
    intro p c hc
    have e := launchDanmaku_eq p c hc
    obtain ⟨q, h1, h2, h3, h4, h5, h6, h7, h8, h9, h10⟩ := ih
      { p with
        danmakuFrequency := Function.update p.danmakuFrequency 2 (p.danmakuFrequency 2 + 1)
        danmakuHighFreqMode := decide (4 ≤ p.danmakuFrequency 3)
        danmakuChannelIndex := ((nextCursor p.activeLaneCount c).val : Int) }
      (nextCursor p.activeLaneCount c) rfl
    have h32 : (3 : Fin 4) ≠ 2 := by decide
    have h02 : (0 : Fin 4) ≠ 2 := by decide
    have h12 : (1 : Fin 4) ≠ 2 := by decide
    simp only [DanmakuPlayer.activeLaneCount, Function.update_noteq h32,
      Function.update_noteq h02, Function.update_noteq h12, Function.update_same] at h1 h3 h4 h5 h6 h7 h8
    refine ⟨q, ?_, h2, ?_, h4, h5, ?_, h7, ?_, h9, h10⟩
    · rw [DanmakuPlayer.launchMany, e]
      simp only [DanmakuPlayer.activeLaneCount]
      rw [h1]
      rfl
    · rw [h3]
      rfl
    · rw [h6]
      push_cast
      ring
    · intro _
      rcases Nat.eq_zero_or_pos n with hn | hn
      · subst hn
        simp only [DanmakuPlayer.launchMany, DanmakuPlayer.activeLaneCount] at h1
        have := (Prod.mk.inj (Option.some.inj h1)).2
        rw [← this]
      · exact h8 hn

/-! ## The invariant of the reachable states -/

theorem initDanmaku_inv (p q : DanmakuPlayer) (qrand : Nat → Int) (hq : ∀ n, 0 ≤ qrand n)
    (h0 : 0 ≤ p.danmakuChannelIndex) (h1 : p.danmakuChannelIndex < 24)
    (e : p.initDanmaku qrand = some q) : SchedulerInv q := by
  obtain ⟨seq, hs, e'⟩ := initDanmaku_spec p qrand hq
  rw [e'] at e
  have := Option.some.inj e
  subst this
  exact ⟨h0, h1, hs⟩

theorem Reachable.inv {p : DanmakuPlayer} (h : Reachable p) : SchedulerInv p := by
  induction h with
  | construct qrand p hq e =>
    exact initDanmaku_inv _ p qrand hq (by decide) (by decide) e
  | init qrand p q _ hq e ih =>
    exact initDanmaku_inv p q qrand hq ih.1 ih.2.1 e
  | keyD qrand p q _ hq e ih =>
    unfold DanmakuPlayer.keyPressEventKeyD at e
    simp only at e
    split at e
    · have := Option.some.inj e
      subst this
      exact ih
    · exact initDanmaku_inv { p with danmakuShowFlag := !p.danmakuShowFlag } q qrand hq
        ih.1 ih.2.1 e
  | launch p q c _ e ih =>
    obtain ⟨j, hj, hjv⟩ := channelSlot_of_mem ih.1 ih.2.1
    rw [launchDanmaku_eq p j hjv.symm] at e
    have := (Prod.mk.inj (Option.some.inj e)).2
    subst this
    have := (nextCursor p.activeLaneCount j).isLt
    exact ⟨by simp only; omega, by simp only; omega, ih.2.2⟩
  | update p _ ih =>
    exact ih

/-! ## Sample inputs -/

theorem sampleDraws_nonneg (n : Nat) : 0 ≤ sampleDraws n := by
  unfold sampleDraws
  positivity

theorem construct_sampleDraws : DanmakuPlayer.construct sampleDraws = some samplePlayer := rfl

theorem samplePlayer_reachable : Reachable samplePlayer :=
  Reachable.construct sampleDraws samplePlayer sampleDraws_nonneg construct_sampleDraws

/-! ## C1, C3, C4, C5 -/

/-- C1: in every reachable state the cursor is a subscript of the table, so
`launchDanmaku` returns normally, and the channel it returns, the table entry
at the cursor, lies in `[0,24)`. -/
theorem launchDanmaku_lane_in_range (p : DanmakuPlayer) (h : Reachable p) :
    ∃ (j : Fin 24) (q : DanmakuPlayer),
      channelSlot p.danmakuChannelIndex = some j ∧
      p.launchDanmaku = some (p.danmakuChannelSequence j, q) ∧
      0 ≤ p.danmakuChannelSequence j ∧ p.danmakuChannelSequence j < 24 := by
  have hi := h.inv
  obtain ⟨j, hj, hjv⟩ := channelSlot_of_mem hi.1 hi.2.1
  exact ⟨j, _, hj, launchDanmaku_eq p j hjv.symm, hi.2.2.bounds j⟩

/-- Witness of C1: the player built by the constructor under `sampleDraws`. -/
theorem launchDanmaku_lane_in_range_witness :
    Reachable samplePlayer ∧
    ∃ (j : Fin 24) (q : DanmakuPlayer),
      channelSlot samplePlayer.danmakuChannelIndex = some j ∧
      samplePlayer.launchDanmaku = some (samplePlayer.danmakuChannelSequence j, q) ∧
      0 ≤ samplePlayer.danmakuChannelSequence j ∧
      samplePlayer.danmakuChannelSequence j < 24 :=
  ⟨samplePlayer_reachable, launchDanmaku_lane_in_range samplePlayer samplePlayer_reachable⟩

/-- Witness of C2: the default fields and the draws `sampleDraws`. -/
theorem initDanmaku_permutation_witness :
    (∀ n, 0 ≤ sampleDraws n) ∧
    ∃ q : DanmakuPlayer, DanmakuPlayer.fieldDefaults.initDanmaku sampleDraws = some q ∧
      (∀ j : Fin 24, 0 ≤ q.danmakuChannelSequence j ∧ q.danmakuChannelSequence j < 24) ∧
      (∀ v : Int, 0 ≤ v → v < 24 → ∃! j : Fin 24, q.danmakuChannelSequence j = v) ∧
      (∀ j : Fin 24, j.val < 12 →
        0 ≤ q.danmakuChannelSequence j ∧ q.danmakuChannelSequence j < 12) ∧
      (∀ v : Int, 0 ≤ v → v < 12 →
        ∃ j : Fin 24, j.val < 12 ∧ q.danmakuChannelSequence j = v) ∧
      (∀ j : Fin 24, 12 ≤ j.val →
        12 ≤ q.danmakuChannelSequence j ∧ q.danmakuChannelSequence j < 24) ∧
      (∀ v : Int, 12 ≤ v → v < 24 →
        ∃ j : Fin 24, 12 ≤ j.val ∧ q.danmakuChannelSequence j = v) :=
  ⟨sampleDraws_nonneg,
    initDanmaku_permutation DanmakuPlayer.fieldDefaults sampleDraws sampleDraws_nonneg⟩

/-- C3: let `p` be the state `initDanmaku` leaves when it is run, with
non-negative draws, on a player whose cursor and four frequency counters are
zero (as in the constructor).  Then 13 consecutive calls of `launchDanmaku`
return, in this order, the table entries of the slots `0, 1, ..., 11` and then
the entry of slot `0` again, and the first 12 of them are pairwise distinct. -/
theorem launchDanmaku_round_robin (p₀ p : DanmakuPlayer) (qrand : Nat → Int)
    (hc : p₀.danmakuChannelIndex = 0) (hf : ∀ k, p₀.danmakuFrequency k = 0)
    (hq : ∀ n, 0 ≤ qrand n) (e : p₀.initDanmaku qrand = some p) :
    ∃ q : DanmakuPlayer,
      p.launchMany 13 = some (
        [p.danmakuChannelSequence 0, p.danmakuChannelSequence 1, p.danmakuChannelSequence 2,
         p.danmakuChannelSequence 3, p.danmakuChannelSequence 4, p.danmakuChannelSequence 5,
         p.danmakuChannelSequence 6, p.danmakuChannelSequence 7, p.danmakuChannelSequence 8,
         p.danmakuChannelSequence 9, p.danmakuChannelSequence 10, p.danmakuChannelSequence 11,
         p.danmakuChannelSequence 0], q) ∧
      [p.danmakuChannelSequence 0, p.danmakuChannelSequence 1, p.danmakuChannelSequence 2,
       p.danmakuChannelSequence 3, p.danmakuChannelSequence 4, p.danmakuChannelSequence 5,
       p.danmakuChannelSequence 6, p.danmakuChannelSequence 7, p.danmakuChannelSequence 8,
       p.danmakuChannelSequence 9, p.danmakuChannelSequence 10,
       p.danmakuChannelSequence 11].Nodup := by
  obtain ⟨seq, hs, e'⟩ := initDanmaku_spec p₀ qrand hq
  rw [e'] at e
  have := Option.some.inj e
  subst this
  obtain ⟨q, h1, -⟩ := launchMany_spec 13
    { p₀ with danmakuChannelSequence := seq } 0 hc
  have hm : DanmakuPlayer.activeLaneCount { p₀ with danmakuChannelSequence := seq } = 12 := by
    simp [DanmakuPlayer.activeLaneCount, hf]
  rw [hm] at h1
  refine ⟨q, h1, ?_⟩
  have hn : ([0, 1, 2, 3, 4, 5, 6, 7, 8, 9, 10, 11] : List (Fin 24)).Nodup := by decide
  exact hn.map hs.injective

/-- Witness of C3: the constructor's own `initDanmaku` under `sampleDraws`. -/
theorem launchDanmaku_round_robin_witness :
    (DanmakuPlayer.fieldDefaults.danmakuChannelIndex = 0 ∧
      (∀ k, DanmakuPlayer.fieldDefaults.danmakuFrequency k = 0) ∧
      (∀ n, 0 ≤ sampleDraws n) ∧
      DanmakuPlayer.fieldDefaults.initDanmaku sampleDraws = some samplePlayer) ∧
    ∃ q : DanmakuPlayer,
      samplePlayer.launchMany 13 = some (
        [samplePlayer.danmakuChannelSequence 0, samplePlayer.danmakuChannelSequence 1,
         samplePlayer.danmakuChannelSequence 2, samplePlayer.danmakuChannelSequence 3,
         samplePlayer.danmakuChannelSequence 4, samplePlayer.danmakuChannelSequence 5,
         samplePlayer.danmakuChannelSequence 6, samplePlayer.danmakuChannelSequence 7,
         samplePlayer.danmakuChannelSequence 8, samplePlayer.danmakuChannelSequence 9,
         samplePlayer.danmakuChannelSequence 10, samplePlayer.danmakuChannelSequence 11,
         samplePlayer.danmakuChannelSequence 0], q) ∧
      [samplePlayer.danmakuChannelSequence 0, samplePlayer.danmakuChannelSequence 1,
       samplePlayer.danmakuChannelSequence 2, samplePlayer.danmakuChannelSequence 3,
       samplePlayer.danmakuChannelSequence 4, samplePlayer.danmakuChannelSequence 5,
       samplePlayer.danmakuChannelSequence 6, samplePlayer.danmakuChannelSequence 7,
       samplePlayer.danmakuChannelSequence 8, samplePlayer.danmakuChannelSequence 9,
       samplePlayer.danmakuChannelSequence 10,
       samplePlayer.danmakuChannelSequence 11].Nodup :=
  ⟨⟨rfl, fun _ => rfl, sampleDraws_nonneg, rfl⟩,
    launchDanmaku_round_robin DanmakuPlayer.fieldDefaults samplePlayer sampleDraws
      rfl (fun _ => rfl) sampleDraws_nonneg rfl⟩

theorem launchDanmaku_step (p : DanmakuPlayer) (c : Fin 24)
    (hc : p.danmakuChannelIndex = (c.val : Int)) :
    ∃ q : DanmakuPlayer,
      p.launchDanmaku = some (p.danmakuChannelSequence c, q) ∧
      q.danmakuFrequency 2 = p.danmakuFrequency 2 + 1 ∧
      (4 ≤ p.danmakuFrequency 3 → q.danmakuHighFreqMode = true ∧
        q.danmakuChannelIndex = (p.danmakuChannelIndex + 1) % 24) ∧
      (p.danmakuFrequency 3 < 4 → q.danmakuHighFreqMode = false ∧
        q.danmakuChannelIndex = (p.danmakuChannelIndex + 1) % 12) ∧
      q.danmakuChannelSequence = p.danmakuChannelSequence ∧
      q.danmakuFrequency 0 = p.danmakuFrequency 0 ∧
      q.danmakuFrequency 1 = p.danmakuFrequency 1 ∧
      q.danmakuFrequency 3 = p.danmakuFrequency 3 := by
  refine ⟨_, launchDanmaku_eq p c hc, ?_, ?_, ?_, rfl, ?_, ?_, ?_⟩
  · simp
  · intro h
    have hm : p.activeLaneCount = 24 := by simp [DanmakuPlayer.activeLaneCount, h]
    refine ⟨by simpa using h, ?_⟩
    simp only [hm, nextCursor_val_24, hc]
    exact Int.tmod_eq_emod (by omega) (by omega)
  · intro h
    have hm : p.activeLaneCount = 12 := by
      simp only [DanmakuPlayer.activeLaneCount]
      rw [if_neg (by omega)]
    refine ⟨by simpa using h, ?_⟩
    simp only [hm, nextCursor_val_12, hc]
    exact Int.tmod_eq_emod (by omega) (by omega)
  · show Function.update p.danmakuFrequency 2 (p.danmakuFrequency 2 + 1) 0 = _
    exact Function.update_noteq (show (0 : Fin 4) ≠ 2 by decide) _ _
  · show Function.update p.danmakuFrequency 2 (p.danmakuFrequency 2 + 1) 1 = _
    exact Function.update_noteq (show (1 : Fin 4) ≠ 2 by decide) _ _
  · show Function.update p.danmakuFrequency 2 (p.danmakuFrequency 2 + 1) 3 = _
    exact Function.update_noteq (show (3 : Fin 4) ≠ 2 by decide) _ _

/-- C4: when the cursor is a slot `c` of the table, one `launchDanmaku` returns
the entry of slot `c`, adds 1 to `danmakuFrequency[2]`, sets the mode flag to
high-frequency exactly when `danmakuFrequency[3] >= 4`, moves the cursor to
`(cursor + 1) mod 24` in high-frequency mode and to `(cursor + 1) mod 12`
otherwise, and leaves the table and `danmakuFrequency[0]`, `[1]`, `[3]` as they
were. -/
theorem launchDanmaku_effect (p : DanmakuPlayer) (c : Fin 24)
    (hc : p.danmakuChannelIndex = (c.val : Int)) :
    ∃ q : DanmakuPlayer,
      p.launchDanmaku = some (p.danmakuChannelSequence c, q) ∧
      q.danmakuFrequency 2 = p.danmakuFrequency 2 + 1 ∧
      (4 ≤ p.danmakuFrequency 3 → q.danmakuHighFreqMode = true ∧
        q.danmakuChannelIndex = (p.danmakuChannelIndex + 1) % 24) ∧
      (p.danmakuFrequency 3 < 4 → q.danmakuHighFreqMode = false ∧
        q.danmakuChannelIndex = (p.danmakuChannelIndex + 1) % 12) ∧
      q.danmakuChannelSequence = p.danmakuChannelSequence ∧
      q.danmakuFrequency 0 = p.danmakuFrequency 0 ∧
      q.danmakuFrequency 1 = p.danmakuFrequency 1 ∧
      q.danmakuFrequency 3 = p.danmakuFrequency 3 :=
  launchDanmaku_step p c hc

/-- Witness of C4: the sample player, whose cursor is slot 0. -/
theorem launchDanmaku_effect_witness :
    samplePlayer.danmakuChannelIndex = (((0 : Fin 24)).val : Int) ∧
    ∃ q : DanmakuPlayer,
      samplePlayer.launchDanmaku = some (samplePlayer.danmakuChannelSequence 0, q) ∧
      q.danmakuFrequency 2 = samplePlayer.danmakuFrequency 2 + 1 ∧
      (4 ≤ samplePlayer.danmakuFrequency 3 → q.danmakuHighFreqMode = true ∧
        q.danmakuChannelIndex = (samplePlayer.danmakuChannelIndex + 1) % 24) ∧
      (samplePlayer.danmakuFrequency 3 < 4 → q.danmakuHighFreqMode = false ∧
        q.danmakuChannelIndex = (samplePlayer.danmakuChannelIndex + 1) % 12) ∧
      q.danmakuChannelSequence = samplePlayer.danmakuChannelSequence ∧
      q.danmakuFrequency 0 = samplePlayer.danmakuFrequency 0 ∧
      q.danmakuFrequency 1 = samplePlayer.danmakuFrequency 1 ∧
      q.danmakuFrequency 3 = samplePlayer.danmakuFrequency 3 :=
  ⟨rfl, launchDanmaku_effect samplePlayer 0 rfl⟩

/-- C5: `updateDanmakuFrequency` stores in `danmakuFrequency[3]` the truncated
quotient by 3 of the sum of the old counters `[0]`, `[1]`, `[2]`, then moves
old `[1]` to `[0]`, old `[2]` to `[1]`, clears `[2]`, and changes neither the
mode flag, nor the cursor, nor the table. -/
theorem updateDanmakuFrequency_effect (p : DanmakuPlayer) :
    p.updateDanmakuFrequency.danmakuFrequency 3 =
      Int.tdiv (p.danmakuFrequency 0 + p.danmakuFrequency 1 + p.danmakuFrequency 2) 3 ∧
    p.updateDanmakuFrequency.danmakuFrequency 0 = p.danmakuFrequency 1 ∧
    p.updateDanmakuFrequency.danmakuFrequency 1 = p.danmakuFrequency 2 ∧
    p.updateDanmakuFrequency.danmakuFrequency 2 = 0 ∧
    p.updateDanmakuFrequency.danmakuHighFreqMode = p.danmakuHighFreqMode ∧
    p.updateDanmakuFrequency.danmakuChannelIndex = p.danmakuChannelIndex ∧
    p.updateDanmakuFrequency.danmakuChannelSequence = p.danmakuChannelSequence := by
  refine ⟨?_, ?_, ?_, ?_, rfl, rfl, rfl⟩
  · simp only [DanmakuPlayer.updateDanmakuFrequency]
    rw [Function.update_noteq (by decide), Function.update_noteq (by decide),
      Function.update_noteq (by decide), Function.update_same]
    congr 1
    ring
  · simp only [DanmakuPlayer.updateDanmakuFrequency]
    rw [Function.update_noteq (by decide), Function.update_same,
      Function.update_noteq (by decide), Function.update_noteq (by decide)]
  · simp only [DanmakuPlayer.updateDanmakuFrequency]
    rw [Function.update_same, Function.update_noteq (by decide)]
  · simp only [DanmakuPlayer.updateDanmakuFrequency]
    rw [Function.update_noteq (by decide), Function.update_noteq (by decide),
      Function.update_same]

/-! ## A full cycle of the cursor -/

set_option maxRecDepth 100000 in
theorem cursorsFrom_12 :
    ∀ c : Fin 24, c.val < 12 →
      (cursorsFrom 12 c 12).Nodup ∧ ∀ j : Fin 24, j ∈ cursorsFrom 12 c 12 ↔ j.val < 12 := by
  decide

set_option maxRecDepth 100000 in
theorem cursorsFrom_24 :
    ∀ c : Fin 24, (cursorsFrom 24 c 24).Nodup ∧ ∀ j : Fin 24, j ∈ cursorsFrom 24 c 24 := by
  decide

theorem cursorsFrom_length (m : Nat) (n : Nat) :
    ∀ c : Fin 24, (cursorsFrom m c n).length = n := by
  induction n with
  | zero => intro c; rfl
  | succ n ih => intro c; simp [cursorsFrom, ih]

theorem Reachable.afterLaunches {p : DanmakuPlayer} (h : Reachable p) (n : Nat) :
    Reachable (p.afterLaunches n) := by
  induction n generalizing p with
  | zero => exact h
  | succ n ih =>
    obtain ⟨j, hj, hjv⟩ := channelSlot_of_mem h.inv.1 h.inv.2.1
    have e := launchDanmaku_eq p j hjv.symm
    have hr := ih (Reachable.launch p _ _ h e)
    unfold DanmakuPlayer.afterLaunches at hr ⊢
    rw [DanmakuPlayer.launchMany, e]
    simp only
    split at hr
    · rename_i l q hq
      rw [hq]
      exact hr
    · rename_i hq
      rw [hq]
      exact h

theorem Reachable.updateMany {p : DanmakuPlayer} (h : Reachable p) (n : Nat) :
    Reachable (p.updateMany n) := by
  induction n generalizing p with
  | zero => exact h
  | succ n ih => exact ih (Reachable.update p h)

theorem burstPlayer_reachable : Reachable burstPlayer :=
  Reachable.update _ (samplePlayer_reachable.afterLaunches 12)

theorem strandedPlayer_reachable : Reachable strandedPlayer :=
  (burstPlayer_reachable.afterLaunches 18).updateMany 4

/-! ## C6 -/

set_option maxRecDepth 100000 in
/-- C6 fails as stated: `strandedPlayer` is reachable, its rolling average is 0
and its cursor is 18, and its next 12 calls of `launchDanmaku` return
`23, 9, 2, 3, 5, 6, 4, 8, 1, 7, 10, 0`: the entry 23 of slot 18 is returned and
the entry 11 of slot 6 is not.  So the 12 channels of a run in normal mode need not
be the entries of the slots `0..11`. -/
theorem launchDanmaku_full_cycle_counterexample :
    Reachable strandedPlayer ∧
    strandedPlayer.danmakuFrequency 3 = 0 ∧
    strandedPlayer.danmakuChannelIndex = 18 ∧
    (List.finRange 24).map strandedPlayer.danmakuChannelSequence =
      [4, 8, 1, 7, 10, 0, 11, 9, 2, 3, 5, 6, 16, 20, 13, 19, 22, 12, 23, 21, 14, 15, 17, 18] ∧
    (strandedPlayer.launchMany 12).map Prod.fst =
      some [23, 9, 2, 3, 5, 6, 4, 8, 1, 7, 10, 0] ∧
    ¬ (∀ p : DanmakuPlayer, Reachable p →
        (p.danmakuFrequency 3 < 4 →
          ∃ (lanes : List Int) (q : DanmakuPlayer),
            p.launchMany 12 = some (lanes, q) ∧ lanes.Nodup ∧
            ∀ v : Int, v ∈ lanes ↔
              ∃ j : Fin 24, j.val < 12 ∧ p.danmakuChannelSequence j = v) ∧
        (4 ≤ p.danmakuFrequency 3 →
          ∃ (lanes : List Int) (q : DanmakuPlayer),
            p.launchMany 24 = some (lanes, q) ∧ lanes.Nodup ∧
            ∀ v : Int, v ∈ lanes ↔ ∃ j : Fin 24, p.danmakuChannelSequence j = v)) := by
  have hl : (strandedPlayer.launchMany 12).map Prod.fst =
      some [23, 9, 2, 3, 5, 6, 4, 8, 1, 7, 10, 0] := by decide
  refine ⟨strandedPlayer_reachable, by decide, by decide, by decide, hl, ?_⟩
  intro hall
  obtain ⟨lanes, q, e, -, hmem⟩ :=
    (hall strandedPlayer strandedPlayer_reachable).1 (by decide)
  rw [e] at hl
  have hlanes : lanes = [23, 9, 2, 3, 5, 6, 4, 8, 1, 7, 10, 0] := Option.some.inj hl
  have h23 : (23 : Int) ∈ lanes := by rw [hlanes]; decide
  obtain ⟨j, hj, hv⟩ := (hmem 23).1 h23
  have := strandedPlayer_reachable.inv.2.2.lower j hj
  omega

/-- C6, amended: in a reachable state whose cursor is below the active lane
count, a run of that many calls of `launchDanmaku` with no
`updateDanmakuFrequency` in between returns pairwise distinct channels that are
exactly the table entries of the active slots: 12 calls and the slots `0..11`
when `danmakuFrequency[3] < 4` and the cursor is below 12, 24 calls and all
slots when `danmakuFrequency[3] >= 4`. -/
theorem launchDanmaku_full_cycle (p : DanmakuPlayer) (h : Reachable p) :
    (p.danmakuFrequency 3 < 4 → p.danmakuChannelIndex < 12 →
      ∃ (lanes : List Int) (q : DanmakuPlayer),
        p.launchMany 12 = some (lanes, q) ∧ lanes.length = 12 ∧ lanes.Nodup ∧
        ∀ v : Int, v ∈ lanes ↔ ∃ j : Fin 24, j.val < 12 ∧ p.danmakuChannelSequence j = v) ∧
    (4 ≤ p.danmakuFrequency 3 →
      ∃ (lanes : List Int) (q : DanmakuPlayer),
        p.launchMany 24 = some (lanes, q) ∧ lanes.length = 24 ∧ lanes.Nodup ∧
        ∀ v : Int, v ∈ lanes ↔ ∃ j : Fin 24, p.danmakuChannelSequence j = v) := by
  have hi := h.inv
  obtain ⟨c, -, hcv⟩ := channelSlot_of_mem hi.1 hi.2.1
  constructor
  · intro hf hc
    obtain ⟨q, e, -⟩ := launchMany_spec 12 p c hcv.symm
    have hm : p.activeLaneCount = 12 := by
      simp only [DanmakuPlayer.activeLaneCount]
      rw [if_neg (by omega)]
    rw [hm] at e
    obtain ⟨hnd, hmem⟩ := cursorsFrom_12 c (by omega)
    refine ⟨_, q, e, by simp [cursorsFrom_length], hnd.map hi.2.2.injective, ?_⟩
    intro v
    simp only [List.mem_map, hmem]
  · intro hf
    obtain ⟨q, e, -⟩ := launchMany_spec 24 p c hcv.symm
    have hm : p.activeLaneCount = 24 := by simp [DanmakuPlayer.activeLaneCount, hf]
    rw [hm] at e
    have hc := cursorsFrom_24 c
    refine ⟨_, q, e, by simp [cursorsFrom_length], hc.1.map hi.2.2.injective, ?_⟩
    intro v
    simp only [List.mem_map, hc.2, true_and]

/-- Witness of C6, amended: the sample player (normal mode, cursor 0) and the
burst player (rolling average 4). -/
theorem launchDanmaku_full_cycle_witness :
    (Reachable samplePlayer ∧ samplePlayer.danmakuFrequency 3 < 4 ∧
      samplePlayer.danmakuChannelIndex < 12 ∧
      ∃ (lanes : List Int) (q : DanmakuPlayer),
        samplePlayer.launchMany 12 = some (lanes, q) ∧ lanes.length = 12 ∧ lanes.Nodup ∧
        ∀ v : Int, v ∈ lanes ↔
          ∃ j : Fin 24, j.val < 12 ∧ samplePlayer.danmakuChannelSequence j = v) ∧
    (Reachable burstPlayer ∧ 4 ≤ burstPlayer.danmakuFrequency 3 ∧
      ∃ (lanes : List Int) (q : DanmakuPlayer),
        burstPlayer.launchMany 24 = some (lanes, q) ∧ lanes.length = 24 ∧ lanes.Nodup ∧
        ∀ v : Int, v ∈ lanes ↔ ∃ j : Fin 24, burstPlayer.danmakuChannelSequence j = v) :=
  ⟨⟨samplePlayer_reachable, by decide, by decide,
      (launchDanmaku_full_cycle samplePlayer samplePlayer_reachable).1 (by decide) (by decide)⟩,
    ⟨burstPlayer_reachable, by decide,
      (launchDanmaku_full_cycle burstPlayer burstPlayer_reachable).2 (by decide)⟩⟩

/-! ## Several calls of `updateDanmakuFrequency` with no launch in between -/

theorem updateMany_three (p : DanmakuPlayer) :
    p.updateMany 3 =
      { p with danmakuFrequency :=
          fun k => if k = 3 then Int.tdiv (p.danmakuFrequency 2) 3 else 0 } := by
  simp only [DanmakuPlayer.updateMany, DanmakuPlayer.updateDanmakuFrequency]
  congr 1
  funext k
  fin_cases k <;> simp [Function.update]

theorem updateMany_four (p : DanmakuPlayer) :
    p.updateMany 4 = { p with danmakuFrequency := fun _ => 0 } := by
  simp only [DanmakuPlayer.updateMany, DanmakuPlayer.updateDanmakuFrequency]
  congr 1
  funext k
  fin_cases k <;> simp [Function.update]

theorem busyPlayer_reachable : Reachable busyPlayer :=
  burstPlayer_reachable.afterLaunches 12

/-! ## C7 -/

set_option maxRecDepth 100000 in
/-- C7 fails as stated: the sample player is freshly constructed (counters 0,
cursor 0, normal mode); after 5 calls of `launchDanmaku` and then 3 calls of
`updateDanmakuFrequency` the counters are `0, 0, 0, 1`, so the rolling average
is 1, and the next `launchDanmaku` leaves the mode normal and moves the cursor
from 5 to 6. -/
theorem burst_escalation_counterexample :
    (List.finRange 4).map samplePlayer.danmakuFrequency = [0, 0, 0, 0] ∧
    samplePlayer.danmakuChannelIndex = 0 ∧
    samplePlayer.danmakuHighFreqMode = false ∧
    (samplePlayer.launchMany 5).map
        (fun r => (List.finRange 4).map (r.2.updateMany 3).danmakuFrequency) =
      some [0, 0, 0, 1] ∧
    ((samplePlayer.launchMany 5).bind (fun r => (r.2.updateMany 3).launchDanmaku)).map
        (fun r => (r.2.danmakuHighFreqMode, r.2.danmakuChannelIndex)) =
      some (false, 6) ∧
    ¬ (∀ p : DanmakuPlayer, p.danmakuChannelIndex = 0 → (∀ k, p.danmakuFrequency k = 0) →
        p.danmakuHighFreqMode = false →
        ∃ (lanes : List Int) (q : DanmakuPlayer),
          p.launchMany 5 = some (lanes, q) ∧ 4 ≤ (q.updateMany 3).danmakuFrequency 3) := by
  have h5 : (samplePlayer.launchMany 5).map
      (fun r => (List.finRange 4).map (r.2.updateMany 3).danmakuFrequency) =
      some [0, 0, 0, 1] := by decide
  refine ⟨by decide, by decide, by decide, h5, by decide, ?_⟩
  intro hall
  obtain ⟨lanes, q, e, h4⟩ := hall samplePlayer (by decide) (by decide) (by decide)
  have h3 : (samplePlayer.launchMany 5).map
      (fun r => (r.2.updateMany 3).danmakuFrequency 3) = some 1 := by decide
  rw [e] at h3
  have h1 : (q.updateMany 3).danmakuFrequency 3 = 1 := Option.some.inj h3
  omega

/-- C7, amended: start with all four counters 0 and the cursor 0.  After `n`
calls of `launchDanmaku` in one window and then 3 calls of
`updateDanmakuFrequency`, `danmakuFrequency[3]` is `n / 3`.  With `n >= 12` it is
at least 4, and the next `launchDanmaku` sets the mode to high-frequency and
moves the cursor to `(cursor + 1) mod 24`; with `n < 12` it is below 4 and the
next `launchDanmaku` sets the mode to normal. -/
theorem burst_escalation (p : DanmakuPlayer) (n : Nat)
    (hc : p.danmakuChannelIndex = 0) (hf : ∀ k, p.danmakuFrequency k = 0) :
    ∃ (lanes : List Int) (q : DanmakuPlayer),
      p.launchMany n = some (lanes, q) ∧
      (q.updateMany 3).danmakuFrequency 3 = Int.tdiv (n : Int) 3 ∧
      (12 ≤ n → 4 ≤ (q.updateMany 3).danmakuFrequency 3 ∧
        ∃ (c : Int) (r : DanmakuPlayer), (q.updateMany 3).launchDanmaku = some (c, r) ∧
          r.danmakuHighFreqMode = true ∧
          r.danmakuChannelIndex = ((q.updateMany 3).danmakuChannelIndex + 1) % 24) ∧
      (n < 12 → (q.updateMany 3).danmakuFrequency 3 < 4 ∧
        ∃ (c : Int) (r : DanmakuPlayer), (q.updateMany 3).launchDanmaku = some (c, r) ∧
          r.danmakuHighFreqMode = false ∧
          r.danmakuChannelIndex = ((q.updateMany 3).danmakuChannelIndex + 1) % 12) := by
  obtain ⟨q, e, -, hq, -, -, hq2, -⟩ := launchMany_spec n p 0 hc
  rw [hf 2, zero_add] at hq2
  have h3 : (q.updateMany 3).danmakuFrequency 3 = Int.tdiv (n : Int) 3 := by
    rw [updateMany_three]
    simp [hq2]
  have hidx : (q.updateMany 3).danmakuChannelIndex =
      ((cursorAfter p.activeLaneCount 0 n).val : Int) := by
    rw [updateMany_three]
    exact hq
  have hdiv : Int.tdiv (n : Int) 3 = (n : Int) / 3 := Int.tdiv_eq_ediv (by omega) (by omega)
  obtain ⟨r, hr, -, hhi, hlo, -⟩ := launchDanmaku_step (q.updateMany 3) _ hidx
  refine ⟨_, q, e, h3, ?_, ?_⟩
  · intro hn
    have h4 : 4 ≤ (q.updateMany 3).danmakuFrequency 3 := by rw [h3, hdiv]; omega
    exact ⟨h4, _, r, hr, hhi h4⟩
  · intro hn
    have h4 : (q.updateMany 3).danmakuFrequency 3 < 4 := by rw [h3, hdiv]; omega
    exact ⟨h4, _, r, hr, hlo h4⟩

/-- Witness of C7, amended: the sample player and a burst of 12 launches. -/
theorem burst_escalation_witness :
    (samplePlayer.danmakuChannelIndex = 0 ∧
      ∀ k, samplePlayer.danmakuFrequency k = 0) ∧
    ∃ (lanes : List Int) (q : DanmakuPlayer),
      samplePlayer.launchMany 12 = some (lanes, q) ∧
      (q.updateMany 3).danmakuFrequency 3 = Int.tdiv ((12 : Nat) : Int) 3 ∧
      (12 ≤ 12 → 4 ≤ (q.updateMany 3).danmakuFrequency 3 ∧
        ∃ (c : Int) (r : DanmakuPlayer), (q.updateMany 3).launchDanmaku = some (c, r) ∧
          r.danmakuHighFreqMode = true ∧
          r.danmakuChannelIndex = ((q.updateMany 3).danmakuChannelIndex + 1) % 24) ∧
      (12 < 12 → (q.updateMany 3).danmakuFrequency 3 < 4 ∧
        ∃ (c : Int) (r : DanmakuPlayer), (q.updateMany 3).launchDanmaku = some (c, r) ∧
          r.danmakuHighFreqMode = false ∧
          r.danmakuChannelIndex = ((q.updateMany 3).danmakuChannelIndex + 1) % 12) :=
  ⟨⟨rfl, fun _ => rfl⟩,
    burst_escalation samplePlayer 12 rfl (fun _ => rfl)⟩

/-! ## C8 -/

set_option maxRecDepth 100000 in
/-- C8 fails as stated: `busyPlayer` is reachable and in high-frequency mode with
counters `0, 12, 12, 4`; after 3 calls of `updateDanmakuFrequency` the counters
are `0, 0, 0, 4`, so the rolling average is still 4 and the next `launchDanmaku`
keeps the high-frequency mode (cursor 12 to 13). -/
theorem deescalation_counterexample :
    Reachable busyPlayer ∧
    busyPlayer.danmakuHighFreqMode = true ∧
    (List.finRange 4).map busyPlayer.danmakuFrequency = [0, 12, 12, 4] ∧
    (List.finRange 4).map (busyPlayer.updateMany 3).danmakuFrequency = [0, 0, 0, 4] ∧
    ((busyPlayer.updateMany 3).launchDanmaku).map
        (fun r => (r.2.danmakuHighFreqMode, r.2.danmakuChannelIndex)) = some (true, 13) ∧
    ¬ (∀ p : DanmakuPlayer, Reachable p → p.danmakuHighFreqMode = true →
        (p.updateMany 3).danmakuFrequency 3 < 4) := by
  refine ⟨busyPlayer_reachable, by decide, by decide, by decide, by decide, ?_⟩
  intro hall
  have h := hall busyPlayer busyPlayer_reachable (by decide)
  have h4 : (busyPlayer.updateMany 3).danmakuFrequency 3 = 4 := by decide
  omega

/-- C8, amended: in a reachable state in high-frequency mode, after 3 calls of
`updateDanmakuFrequency` with no launch in between `danmakuFrequency[3]` is the
old `danmakuFrequency[2]` divided by 3; it is below 4, and the next
`launchDanmaku` sets the mode to normal, exactly when the old
`danmakuFrequency[2]` is below 12.  After 4 such calls `danmakuFrequency[3]` is 0
and the next `launchDanmaku` sets the mode to normal. -/
theorem deescalation (p : DanmakuPlayer) (h : Reachable p)
    (_hm : p.danmakuHighFreqMode = true) :
    (p.updateMany 3).danmakuFrequency 3 = Int.tdiv (p.danmakuFrequency 2) 3 ∧
    ((p.updateMany 3).danmakuFrequency 3 < 4 ↔ p.danmakuFrequency 2 < 12) ∧
    (∃ (c : Int) (r : DanmakuPlayer), (p.updateMany 3).launchDanmaku = some (c, r) ∧
      (r.danmakuHighFreqMode = false ↔ p.danmakuFrequency 2 < 12)) ∧
    (p.updateMany 4).danmakuFrequency 3 = 0 ∧
    ∃ (c : Int) (r : DanmakuPlayer), (p.updateMany 4).launchDanmaku = some (c, r) ∧
      r.danmakuHighFreqMode = false := by
  have hi := h.inv
  obtain ⟨j, -, hjv⟩ := channelSlot_of_mem hi.1 hi.2.1
  have h3 : (p.updateMany 3).danmakuFrequency 3 = Int.tdiv (p.danmakuFrequency 2) 3 := by
    rw [updateMany_three]
    simp
  have h4 : (p.updateMany 4).danmakuFrequency 3 = 0 := by
    rw [updateMany_four]
  have hlt : Int.tdiv (p.danmakuFrequency 2) 3 < 4 ↔ p.danmakuFrequency 2 < 12 := by
    constructor
    · intro hl
      by_contra hge
      have : (4 : Int) ≤ Int.tdiv (p.danmakuFrequency 2) 3 := by
        rw [Int.tdiv_eq_ediv (by omega) (by omega)]
        omega
      omega
    · intro hl
      rcases Int.lt_or_le (p.danmakuFrequency 2) 0 with hneg | hpos
      · have hn := Int.tdiv_nonneg (a := -p.danmakuFrequency 2) (b := 3) (by omega) (by omega)
        rw [Int.neg_tdiv] at hn
        omega
      · rw [Int.tdiv_eq_ediv hpos (by omega)]
        omega
  have i3 : (p.updateMany 3).danmakuChannelIndex = (j.val : Int) := by
    rw [updateMany_three]
    exact hjv.symm
  have i4 : (p.updateMany 4).danmakuChannelIndex = (j.val : Int) := by
    rw [updateMany_four]
    exact hjv.symm
  obtain ⟨r3, e3, -, hi3, lo3, -⟩ := launchDanmaku_step (p.updateMany 3) j i3
  obtain ⟨r4, e4, -, -, lo4, -⟩ := launchDanmaku_step (p.updateMany 4) j i4
  refine ⟨h3, by rw [h3]; exact hlt, ⟨_, r3, e3, ?_⟩, h4, _, r4, e4, (lo4 (by omega)).1⟩
  rw [← hlt, ← h3]
  constructor
  · intro hf
    by_contra hge
    have := (hi3 (by omega)).1
    rw [hf] at this
    exact absurd this (by decide)
  · intro hl
    exact (lo3 hl).1

/-- Witness of C8, amended: `busyPlayer`, reachable and in high-frequency mode. -/
theorem deescalation_witness :
    (Reachable busyPlayer ∧ busyPlayer.danmakuHighFreqMode = true) ∧
    ((busyPlayer.updateMany 3).danmakuFrequency 3 = Int.tdiv (busyPlayer.danmakuFrequency 2) 3 ∧
    ((busyPlayer.updateMany 3).danmakuFrequency 3 < 4 ↔ busyPlayer.danmakuFrequency 2 < 12) ∧
    (∃ (c : Int) (r : DanmakuPlayer), (busyPlayer.updateMany 3).launchDanmaku = some (c, r) ∧
      (r.danmakuHighFreqMode = false ↔ busyPlayer.danmakuFrequency 2 < 12)) ∧
    (busyPlayer.updateMany 4).danmakuFrequency 3 = 0 ∧
    ∃ (c : Int) (r : DanmakuPlayer), (busyPlayer.updateMany 4).launchDanmaku = some (c, r) ∧
      r.danmakuHighFreqMode = false) :=
  ⟨⟨busyPlayer_reachable, by decide⟩,
    deescalation busyPlayer busyPlayer_reachable (by decide)⟩

/-! ## C9 -/

set_option maxRecDepth 100000 in
/-- C9 fails as stated: `busyPlayer` is reachable with mode flag set, cursor 12
and counters `0, 12, 12, 4`, and these are still the mode flag, the cursor and
the counters after `initDanmaku`, and also after the overlay is switched off and
on again with two `Key_D` presses. -/
theorem initDanmaku_reset_counterexample :
    Reachable busyPlayer ∧
    (busyPlayer.initDanmaku sampleDraws).map
        (fun q => (q.danmakuHighFreqMode, q.danmakuChannelIndex,
          (List.finRange 4).map q.danmakuFrequency)) = some (true, 12, [0, 12, 12, 4]) ∧
    ((busyPlayer.keyPressEventKeyD sampleDraws).bind
        (fun q => q.keyPressEventKeyD sampleDraws)).map
        (fun q => (q.danmakuShowFlag, q.danmakuHighFreqMode, q.danmakuChannelIndex,
          (List.finRange 4).map q.danmakuFrequency)) = some (true, true, 12, [0, 12, 12, 4]) ∧
    ¬ (∀ (p : DanmakuPlayer) (qrand : Nat → Int), Reachable p → (∀ n, 0 ≤ qrand n) →
        ∃ q : DanmakuPlayer, p.initDanmaku qrand = some q ∧
          (∀ k, q.danmakuFrequency k = 0) ∧ q.danmakuChannelIndex = 0 ∧
          q.danmakuHighFreqMode = false) := by
  have hi : (busyPlayer.initDanmaku sampleDraws).map
      (fun q => (q.danmakuHighFreqMode, q.danmakuChannelIndex,
        (List.finRange 4).map q.danmakuFrequency)) = some (true, 12, [0, 12, 12, 4]) := by
    decide
  refine ⟨busyPlayer_reachable, hi, by decide, ?_⟩
  intro hall
  obtain ⟨q, e, -, h0, -⟩ := hall busyPlayer sampleDraws busyPlayer_reachable sampleDraws_nonneg
  rw [e] at hi
  have := Option.some.inj hi
  simp only [Prod.mk.injEq] at this
  omega

/-- C9, amended: with non-negative draws `initDanmaku` returns normally in every
state and leaves the four counters, the cursor and the mode flag exactly as they
were before the call; after the `initDanmaku` run by the constructor the counters
are all 0, the cursor is 0 and the mode is normal. -/
theorem initDanmaku_keeps_scheduler_fields (p : DanmakuPlayer) (qrand : Nat → Int)
    (hq : ∀ n, 0 ≤ qrand n) :
    (∃ q : DanmakuPlayer, p.initDanmaku qrand = some q ∧
      q.danmakuFrequency = p.danmakuFrequency ∧
      q.danmakuChannelIndex = p.danmakuChannelIndex ∧
      q.danmakuHighFreqMode = p.danmakuHighFreqMode) ∧
    ∃ q : DanmakuPlayer, DanmakuPlayer.construct qrand = some q ∧
      (∀ k, q.danmakuFrequency k = 0) ∧
      q.danmakuChannelIndex = 0 ∧
      q.danmakuHighFreqMode = false := by
  obtain ⟨seq, -, e⟩ := initDanmaku_spec p qrand hq
  obtain ⟨seq', -, e'⟩ := initDanmaku_spec DanmakuPlayer.fieldDefaults qrand hq
  exact ⟨⟨_, e, rfl, rfl, rfl⟩, ⟨_, e', fun _ => rfl, rfl, rfl⟩⟩

/-- Witness of C9, amended: `busyPlayer` and the draws `sampleDraws`. -/
theorem initDanmaku_keeps_scheduler_fields_witness :
    (∀ n, 0 ≤ sampleDraws n) ∧
    ((∃ q : DanmakuPlayer, busyPlayer.initDanmaku sampleDraws = some q ∧
      q.danmakuFrequency = busyPlayer.danmakuFrequency ∧
      q.danmakuChannelIndex = busyPlayer.danmakuChannelIndex ∧
      q.danmakuHighFreqMode = busyPlayer.danmakuHighFreqMode) ∧
    ∃ q : DanmakuPlayer, DanmakuPlayer.construct sampleDraws = some q ∧
      (∀ k, q.danmakuFrequency k = 0) ∧
      q.danmakuChannelIndex = 0 ∧
      q.danmakuHighFreqMode = false) :=
  ⟨sampleDraws_nonneg,
    initDanmaku_keeps_scheduler_fields busyPlayer sampleDraws sampleDraws_nonneg⟩
